import Mathlib

/-!
Verification of the postgres DDL schema generator
(`tortoise/backends/base_postgres/schema_generator.py`).

The Python class `BasePostgresSchemaGenerator` is shallowly embedded here.
Mutable instance state (`comments_array`, `schema_names`) becomes explicit
state passing; the generated SQL strings are built with the same templates
as the source.  Pieces of the repository that live outside the provided
source file (the base-class helpers, the field descriptors, the converter
table) are modelled as input data or as small definitions whose doc
comments say what they stand for.

Modelling decisions, stated once:
* The Python `set` `schema_names` is carried as a duplicate-free list in
  first-insertion order (`setAdd`); membership and size are faithful.
  CPython iterates a `set` in hash-bucket order — deterministic within one
  process for a fixed set object, but *not* insertion order and, with hash
  randomization, not even stable across processes.  Claims that depend on
  the order in which the `for` loop of source line 384 sees the names are
  therefore settled against `get_create_schema_sql_iter`, which takes the
  set's enumeration as an explicit parameter ranging over permutations of
  the distinct names (the only property CPython guarantees);
  `get_create_schema_sql` is its `id` instance on the insertion-ordered
  carrier, one fixed admissible enumeration.
* The source's `schema_name is not "public"` identity test is modelled as
  string inequality; CPython interns the literal `"public"`, so for schema
  names written as literals the two coincide (the spec, section 9, flags
  this identity-comparison pitfall).
* Field attribute truthiness tests (`if field_object.description`,
  `source_field or field`, truthiness of `generated_sql`) are modelled by
  comparison with the empty string, which represents Python `None`/`""`.
-/

namespace TortoiseSchema

/-- A single-quote character, kept out of string literals. -/
def squote : String := String.mk [Char.ofNat 39]

/-- The Python default value of a field, as the generator inspects it.
`pyVal s` stands for a non-callable, non-`None` default whose final
rendering `str(_escape_default_value(field_object.to_db_value(default,
model)))` is the string `s`; `to_db_value` and the converter table live
outside the given source file, so their result is carried as input data. -/
inductive PyDefault where
  | pyNone : PyDefault
  | pyCallable : PyDefault
  | pyVal (s : String) : PyDefault
deriving DecidableEq, Repr

/-- `field_object.reference` (a resolved `ForeignKeyFieldInstance`), with the
attributes the generator reads from it. -/
structure ReferenceDescr where
  /-- `reference.related_model._meta.db_table` -/
  relatedTable : String
  /-- `reference.related_model._meta.schema` (`none` = default namespace) -/
  relatedSchema : Option String
  /-- `reference.to_field_instance.source_field` (`""` = falsy) -/
  toFieldSource : String
  /-- `reference.to_field_instance.model_field_name` -/
  toFieldModelName : String
  /-- `reference.on_delete` -/
  onDelete : String
  /-- `reference.db_constraint` -/
  db_constraint : Bool
  /-- `reference.description` (`""` = `None`) -/
  description : String
deriving DecidableEq, Repr

/-- One entry of `fields_db_projection` together with the data the generator
reads off the corresponding `fields_map` object. -/
structure FieldDescr where
  /-- the `fields_map` key (`field_name` in the projection loop) -/
  name : String
  /-- `column_name`, the projected db column -/
  column : String
  /-- `field_object.get_for_dialect("postgres", "SQL_TYPE")` -/
  sqlType : String
  /-- `field_object.null` -/
  null : Bool
  /-- `field_object.unique` -/
  unique : Bool
  /-- `field_object.pk` -/
  pk : Bool
  /-- `field_object.generated` -/
  generated : Bool
  /-- `field_object.get_for_dialect("postgres", "GENERATED_SQL")` (`""` = falsy) -/
  generatedSql : String
  /-- `field_object.index` -/
  index : Bool
  /-- `field_object.description` (`""` = `None`) -/
  description : String
  /-- `field_object.default` -/
  dflt : PyDefault
  /-- `getattr(field_object, "auto_now_add", False)` -/
  auto_now_add : Bool
  /-- `getattr(field_object, "auto_now", False)` -/
  auto_now : Bool
  /-- `isinstance(field_object, (UUIDField, TextField, JSONField))` -/
  isNonInlinable : Bool
  /-- `field_object.source_field` (`""` = `None`) -/
  source_field : String
  /-- `field_object.reference` (`none` = no reference) -/
  reference : Option ReferenceDescr
deriving DecidableEq, Repr

/-- An entry of `model._meta.indexes`: either a tuple/list of field names or
an `Index` object, whose `get_sql(self, model, safe)` result is carried as
data for both values of `safe` (that method lives outside the source file). -/
inductive IndexDecl where
  | byFields (names : List String) : IndexDecl
  | indexObj (safeSql unsafeSql : String) : IndexDecl
deriving DecidableEq, Repr

/-- A resolved `ManyToManyFieldInstance` from `model._meta.m2m_fields`. -/
structure M2MDescr where
  /-- `field_object._generated` -/
  generated : Bool
  /-- `field_object.through` -/
  through : String
  /-- `field_object.backward_key` -/
  backward_key : String
  /-- `field_object.forward_key` -/
  forward_key : String
  /-- `field_object.on_delete` -/
  on_delete : String
  /-- `field_object.db_constraint` -/
  db_constraint : Bool
  /-- `field_object.description` (`""` = `None`) -/
  description : String
  /-- `field_object.related_model._meta.db_table` -/
  relatedTable : String
  /-- `field_object.related_model._meta.schema` -/
  relatedSchema : Option String
  /-- `field_object.related_model._meta.db_pk_column` -/
  relatedPkColumn : String
  /-- `field_object.related_model._meta.pk.get_for_dialect("postgres", "SQL_TYPE")` -/
  relatedPkType : String
deriving DecidableEq, Repr

/-- One fully resolved model (`Type[Model]` with its `_meta`), as produced by
the model-definition collaborator (spec section 6 input contract). -/
structure ModelDescr where
  /-- `model._meta.db_table` -/
  db_table : String
  /-- `model._meta.schema` (`none` = default namespace) -/
  schema : Option String
  /-- `model._meta.table_description` (`""` = `None`) -/
  table_description : String
  /-- `model._meta.fields_db_projection` paired with the field objects, in order -/
  fields : List FieldDescr
  /-- `model._meta.unique_together` -/
  unique_together : List (List String)
  /-- `model._meta.indexes` -/
  indexes : List IndexDecl
  /-- `model._meta.m2m_fields`, resolved through `fields_map` -/
  m2m_fields : List M2MDescr
  /-- `model._meta.db_pk_column` -/
  db_pk_column : String
  /-- `model._meta.pk.get_for_dialect("postgres", "SQL_TYPE")` -/
  pkType : String
deriving DecidableEq, Repr

/-- `IF_NOT_EXISTS` for `safe=True`, `""` otherwise. -/
def existsStr (safe : Bool) : String :=
  if safe then "IF NOT EXISTS " else ""

/-- `BaseSchemaGenerator.quote`.  Modelled from the spec: the dialect's
identifier quoting character is the double quote. -/
def quote (s : String) : String :=
  "\"" ++ s ++ "\""

/-- `BasePostgresSchemaGenerator._get_table_name_sql_string`, taking the
model's `(schema, db_table)` pair. -/
def tableNameSqlString (schema : Option String) (db_table : String) : String :=
  match schema with
  | some sch => quote sch ++ "." ++ quote db_table
  | none => quote db_table

/-- `BaseSchemaGenerator._escape_comment` composed with the postgres escape
translation table.  Modelled from the spec: single quotes inside free-text
comments are doubled, the only mandated escaping rule (section 6); the
source file itself only shows the `ord("'") -> "''"` table entry. -/
def escapeComment (c : String) : String :=
  c.replace squote (squote ++ squote)

/-- `TABLE_COMMENT_TEMPLATE` instantiation (side-effect-free part of
`_table_comment_generator`). -/
def tableCommentStmt (table_name comment : String) : String :=
  "COMMENT ON TABLE " ++ table_name ++ " IS " ++ squote ++ escapeComment comment
    ++ squote ++ ";"

/-- `COLUMN_COMMENT_TEMPLATE` instantiation (side-effect-free part of
`_column_comment_generator`). -/
def columnCommentStmt (table_name column comment : String) : String :=
  "COMMENT ON COLUMN " ++ table_name ++ "." ++ quote column ++ " IS " ++ squote
    ++ escapeComment comment ++ squote ++ ";"

/-- `_column_comment_generator`'s effect on `comments_array`: append the
rendered comment unless already present (the generator itself returns `""`). -/
def addColumnComment (comments : List String) (table_name column comment : String) :
    List String :=
  let c := columnCommentStmt table_name column comment
  if comments.contains c then comments else comments ++ [c]

/-- `_table_comment_generator`'s effect on `comments_array`: always append
(the generator itself returns `""`). -/
def addTableComment (comments : List String) (table_name comment : String) :
    List String :=
  comments ++ [tableCommentStmt table_name comment]

/-- `_post_table_hook`: join and clear `comments_array`; returns the string
to append to the table statement and the cleared collector. -/
def postTableHook (comments : List String) : String × List String :=
  let val := String.intercalate "\n" comments
  (if val ≠ "" then "\n" ++ val else "", [])

/-- `BasePostgresSchemaGenerator._column_default_generator` (source lines
102-112): always emits a `DEFAULT` clause, `CURRENT_TIMESTAMP` when
`auto_now_add` and the escaped default value otherwise.  The `table` and
`column` parameters are accepted and ignored, as in the source. -/
def columnDefaultGenerator (table column default : String)
    (auto_now_add auto_now : Bool) : String :=
  let _ := table
  let _ := column
  let _ := auto_now
  " DEFAULT" ++ (if auto_now_add then " CURRENT_TIMESTAMP" else " " ++ default)

/-- Result of `str(_escape_default_value(to_db_value(default, model)))` for
each default shape.  For `pyVal` the string is carried as input data; for
Python `None` the converter table (`tortoise.converters`, outside the given
source file) maps `None` to the literal `NULL`.  The claims settled below do
not depend on that concrete value, only on the clause being non-empty.
`pyCallable` never reaches this function (the `callable(default)` branch
fires first). -/
def escapeDefaultValue : PyDefault → String
  | .pyNone => "NULL"
  | .pyCallable => ""
  | .pyVal s => s

/-- Tests `default is not None`. -/
def PyDefault.isNotNone : PyDefault → Bool
  | .pyNone => false
  | _ => true

/-- Tests `callable(default)`. -/
def PyDefault.isCallable : PyDefault → Bool
  | .pyCallable => true
  | _ => false

/-- The default-clause computation of `_get_table_sql` (source lines
150-169): the guard `default is not None or auto_now or auto_now_add`, the
callable / `UUIDField`/`TextField`/`JSONField` suppression, then the dialect
default generator.  The postgres `_column_default_generator` cannot raise
`NotImplementedError`, so the `except` arm is dead here. -/
def computeDefault (db_table : String) (fo : FieldDescr) : String :=
  if fo.dflt.isNotNone || fo.auto_now || fo.auto_now_add then
    if fo.dflt.isCallable || fo.isNonInlinable then ""
    else
      columnDefaultGenerator db_table fo.column (escapeDefaultValue fo.dflt)
        fo.auto_now_add fo.auto_now
  else ""

/-- Python-set insertion: append unless already present (first-insertion
order; see the modelling note in the header). -/
def setAdd (l : List String) (x : String) : List String :=
  if l.contains x then l else l ++ [x]

/-- `to_field_name = reference.to_field_instance.source_field or
reference.to_field_instance.model_field_name` (source lines 200-202). -/
def toFieldName (r : ReferenceDescr) : String :=
  if r.toFieldSource ≠ "" then r.toFieldSource else r.toFieldModelName

/-- `_create_fk_string` (source lines 52-63): instantiates `FK_TEMPLATE`.
The `constraint_name` and `db_column` parameters of the source method are
unused by the template and omitted here. -/
def createFkString (table_name field on_delete comment : String) : String :=
  " REFERENCES " ++ table_name ++ " (" ++ quote field ++ ") ON DELETE "
    ++ on_delete ++ comment

/-- `BaseSchemaGenerator._create_string`.  Modelled from the spec: the base
column renderer fills the dialect's `FIELD_TEMPLATE`
(`'"{name}" {type} {nullable} {unique}{primary}{default}{comment}'`,
source line 32), suppressing the unique marker on primary keys, rendering
`PRIMARY KEY` for them, and stripping outer whitespace; postgres comments go
through the collector, so the `comment` argument it receives is always the
empty string here. -/
def createString (db_column field_type nullable unique : String)
    (is_primary_key : Bool) (comment default : String) : String :=
  (quote db_column ++ " " ++ field_type ++ " " ++ nullable ++ " "
    ++ (if is_primary_key then "" else unique)
    ++ (if is_primary_key then " PRIMARY KEY" else "")
    ++ default ++ comment).trim

/-- The guard of the generated-primary-key branch (source lines 172-175):
`field_object.pk`, `field_object.generated`, and a truthy dialect
`GENERATED_SQL`. -/
def isGeneratedPk (fo : FieldDescr) : Bool :=
  fo.pk && fo.generated && fo.generatedSql ≠ ""

/-- `GENERATED_PK_TEMPLATE` instantiation; the template has no `{comment}`
slot, so the comment argument passed by the source is discarded. -/
def generatedPkLine (fo : FieldDescr) : String :=
  quote fo.column ++ " " ++ fo.generatedSql

/-- The column-definition fragment one field contributes to
`fields_to_create` (source lines 171-243): the generated-pk replacement
line, or the rendered column optionally followed by the `REFERENCES` clause
when the relation requests a database constraint. -/
def fieldFragment (m : ModelDescr) (fo : FieldDescr) : String :=
  if isGeneratedPk fo then generatedPkLine fo
  else
    let nullable := if !fo.null then "NOT NULL" else ""
    let unique := if fo.unique then "UNIQUE" else ""
    let dflt := computeDefault m.db_table fo
    match fo.reference with
    | some r =>
        createString fo.column fo.sqlType nullable unique fo.pk "" dflt
          ++ (if r.db_constraint then
                createFkString (tableNameSqlString r.relatedSchema r.relatedTable)
                  (toFieldName r) r.onDelete ""
              else "")
    | none => createString fo.column fo.sqlType nullable unique fo.pk "" dflt

/-- Accumulator of the per-field loop of `_get_table_sql`:
`fields_to_create`, `fields_with_index`, `references`, and the instance's
`comments_array`. -/
structure FieldAcc where
  frags : List String
  withIdx : List String
  refs : List String
  comments : List String
deriving DecidableEq, Repr

/-- One iteration of the field loop (source lines 138-246): collect the
column comment(s), the rendered fragment, the single-column index request,
and — for every reference field that is not a generated pk — the referenced
table, into the accumulator. -/
def fieldStep (m : ModelDescr) (acc : FieldAcc) (fo : FieldDescr) : FieldAcc :=
  let tsql := tableNameSqlString m.schema m.db_table
  let comments :=
    if fo.description ≠ "" then addColumnComment acc.comments tsql fo.column fo.description
    else acc.comments
  if isGeneratedPk fo then
    { acc with frags := acc.frags ++ [fieldFragment m fo], comments := comments }
  else
    let comments :=
      match fo.reference with
      | some r =>
          if r.description ≠ "" then addColumnComment comments tsql fo.column r.description
          else comments
      | none => comments
    let refs :=
      match fo.reference with
      | some r => setAdd acc.refs r.relatedTable
      | none => acc.refs
    { frags := acc.frags ++ [fieldFragment m fo]
      withIdx := acc.withIdx ++ (if fo.index && !fo.pk then [fo.column] else [])
      refs := refs
      comments := comments }

/-- `field_object.source_field or field` for a field name looked up in
`fields_map` (used for unique-together and index declarations; a missing
name would raise `KeyError` in Python and falls back to the name itself
here — well-formed input per spec section 3 always resolves). -/
def resolveSource (m : ModelDescr) (fname : String) : String :=
  match m.fields.find? (fun fo => fo.name == fname) with
  | some fo => if fo.source_field ≠ "" then fo.source_field else fname
  | none => fname

/-- `BaseSchemaGenerator._generate_index_name`.  Modelled from the spec:
index naming is a deterministic function of the table name and the column
list (section 4.2); the exact digest used by the base class is immaterial to
the claims. -/
def generateIndexName (pfx : String) (m : ModelDescr) (field_names : List String) :
    String :=
  pfx ++ "_" ++ m.db_table ++ "_" ++ String.intercalate "_" field_names

/-- `_get_index_sql` (source lines 71-77): instantiates
`INDEX_CREATE_TEMPLATE`. -/
def indexSql (m : ModelDescr) (field_names : List String) (safe : Bool) : String :=
  "CREATE INDEX " ++ existsStr safe ++ quote (generateIndexName "idx" m field_names)
    ++ " ON " ++ tableNameSqlString m.schema m.db_table ++ " ("
    ++ String.intercalate ", " (field_names.map quote) ++ ");"

/-- `BaseSchemaGenerator._get_unique_constraint_sql`.  Modelled from the
spec: one unique-constraint fragment per unique-together group, using the
`UNIQUE_CONSTRAINT_CREATE_TEMPLATE` of the source (line 36). -/
def uniqueConstraintSql (m : ModelDescr) (field_names : List String) : String :=
  "CONSTRAINT " ++ quote (generateIndexName "uid" m field_names) ++ " UNIQUE ("
    ++ String.intercalate ", " (field_names.map quote) ++ ")"

/-- Rendering of one `model._meta.indexes` entry (source lines 265-275). -/
def renderIndexDecl (m : ModelDescr) (safe : Bool) : IndexDecl → String
  | .byFields names => indexSql m (names.map (resolveSource m)) safe
  | .indexObj safeSql unsafeSql => if safe then safeSql else unsafeSql

/-- `list(dict.fromkeys(_))`: deduplicate keeping the first occurrence. -/
def dedupFirst (l : List String) : List String :=
  l.foldl setAdd []

/-- `BaseSchemaGenerator._get_inner_statements`.  Modelled from the spec:
the table body is assembled from column, unique-together and reference
fragments only (section 4.4); the base class contributes no further inner
statements for this dialect. -/
def innerStatements : List String := []

/-- `BaseSchemaGenerator._table_generate_extra`.  Modelled from the spec:
no per-table extra clause exists for this dialect. -/
def tableGenerateExtra : String := ""

/-- The ephemeral table-creation unit: the dict returned by
`_get_table_sql` (source lines 361-368).  The `"model"` entry is dropped —
nothing downstream reads it. -/
structure TUnit where
  table : String
  schema : Option String
  table_creation_string : String
  references : List String
  m2m_tables : List String
deriving DecidableEq, Repr

/-- One iteration of the m2m loop of `_get_table_sql` (source lines
305-359): skip generated relations and join tables that coincide with a
declared model's table; otherwise render `M2M_TABLE_TEMPLATE`, apply the
no-constraint `replace` fix-up, and flush the comment collector into the
statement.  `str(pypika.Table(name=through, schema=model._meta.schema))`
renders like `_get_table_name_sql_string` (pypika is outside this core). -/
def m2mStep (models_tables : List String) (m : ModelDescr) (safe : Bool)
    (acc : List String × List String) (fo : M2MDescr) : List String × List String :=
  if fo.generated || models_tables.contains fo.through then acc
  else
    let through_table := tableNameSqlString m.schema fo.through
    let backward_fk :=
      if fo.db_constraint then
        createFkString (tableNameSqlString m.schema m.db_table) m.db_pk_column
          fo.on_delete ""
      else ""
    let forward_fk :=
      if fo.db_constraint then
        createFkString (tableNameSqlString fo.relatedSchema fo.relatedTable)
          fo.relatedPkColumn fo.on_delete ""
      else ""
    let s := "CREATE TABLE " ++ existsStr safe ++ through_table ++ " (\n    "
      ++ quote fo.backward_key ++ " " ++ m.pkType ++ " NOT NULL" ++ backward_fk
      ++ ",\n    " ++ quote fo.forward_key ++ " " ++ fo.relatedPkType
      ++ " NOT NULL" ++ forward_fk ++ "\n)" ++ tableGenerateExtra ++ ";"
    let s := if !fo.db_constraint then s.replace (",\n    ,\n    ") "" else s
    let comments :=
      if fo.description ≠ "" then addTableComment acc.2 through_table fo.description
      else acc.2
    let hook := postTableHook comments
    (acc.1 ++ [s ++ hook.1], hook.2)

/-- `_get_table_sql` (source lines 129-368), with the instance's
`comments_array` passed explicitly (it is the only instance state this
method touches).  Returns the table-creation unit and the new collector. -/
def getTableSqlC (models : List ModelDescr) (m : ModelDescr) (safe : Bool)
    (comments0 : List String) : TUnit × List String :=
  let models_tables := models.map ModelDescr.db_table
  let a := m.fields.foldl (fieldStep m) ⟨[], [], [], comments0⟩
  let fields_to_create :=
    a.frags ++ m.unique_together.map
      (fun uts => uniqueConstraintSql m (uts.map (resolveSource m)))
  let idxs := a.withIdx.map (fun c => indexSql m [c] safe)
      ++ m.indexes.map (renderIndexDecl m safe)
  let field_indexes_sqls := (dedupFirst idxs).filter (fun s => s ≠ "")
  let fields_to_create := fields_to_create ++ innerStatements
  let table_fields_string :=
    "\n    " ++ String.intercalate ",\n    " fields_to_create ++ "\n"
  let comments1 :=
    if m.table_description ≠ "" then
      addTableComment a.comments (tableNameSqlString m.schema m.db_table)
        m.table_description
    else a.comments
  let table_create_string := "CREATE TABLE " ++ existsStr safe
    ++ tableNameSqlString m.schema m.db_table ++ " (" ++ table_fields_string
    ++ ")" ++ tableGenerateExtra ++ ";"
  let main := String.intercalate "\n" (table_create_string :: field_indexes_sqls)
  let hook := postTableHook comments1
  let mm := m.m2m_fields.foldl (m2mStep models_tables m safe) ([], hook.2)
  (⟨m.db_table, m.schema, main ++ hook.1, a.refs, mm.1⟩, mm.2)

/-- The generator instance's mutable state: `comments_array` and
`schema_names` (source lines 47-50). -/
structure GenState where
  comments_array : List String
  schema_names : List String
deriving DecidableEq, Repr

/-- The state of a freshly constructed generator. -/
def initState : GenState := ⟨[], []⟩

/-- `self.schema_names.add(model._meta.schema)` guarded by
`model._meta.schema is not None` (source lines 376-377). -/
def addSchema (names : List String) (m : ModelDescr) : List String :=
  match m.schema with
  | some s => setAdd names s
  | none => names

/-- The per-model loop of `get_create_schema_sql` (source lines 374-378):
record the schema, build the table-creation unit, thread the collector. -/
def buildUnits (all : List ModelDescr) (safe : Bool) :
    List ModelDescr → GenState → List TUnit × GenState
  | [], st => ([], st)
  | m :: ms, st =>
      let names := addSchema st.schema_names m
      let r := getTableSqlC all m safe st.comments_array
      let rest := buildUnits all safe ms ⟨r.2, names⟩
      (r.1 :: rest.1, rest.2)

/-- `SCHEMA_CREATION_TEMPLATE` instantiation (source lines 380-386). -/
def schemaCreationSql (safe : Bool) (schema_name : String) : String :=
  "CREATE SCHEMA " ++ existsStr safe ++ quote schema_name ++ ";"

/-- A pending unit is placeable when
`t["references"].issubset(created_tables | {t["table"]})`
(source lines 397-401): every dependency is already created or is the
table itself. -/
def placeable (created : List String) (t : TUnit) : Bool :=
  t.references.all (fun r => created.contains r || r == t.table)

/-- The `ConfigurationError` message of source line 403. -/
def cyclicFkMessage : String :=
  "Can" ++ squote ++ "t create schema due to cyclic fk references"

/-- The `while True` ordering loop of `get_create_schema_sql` (source lines
388-407): stop once as many tables are created as there are units; otherwise
place the first pending unit whose dependencies are satisfied, or fail with
the cyclic-dependency error.  `placed` keeps the placement order; the
ordered creation strings and deferred m2m statements are projected from it
afterwards, exactly as the two accumulator lists of the source.

Every iteration removes one element of `pending`, so the source's unbounded
loop runs at most `len(tables_to_create)` times; `fuel` makes that bound the
recursion measure.  The caller passes `fuel = pending.length`, and since a
found unit forces `pending ≠ []`, the exhausted-fuel branch is unreachable
(`fuel` and `pending.length` fall in lockstep). -/
def placeLoop (fuel : Nat) (pending : List TUnit) (created : List String)
    (count : Nat) (placed : List TUnit) : Except String (List TUnit) :=
  if created.length = count then .ok placed
  else
    match pending.find? (placeable created) with
    | none => .error cyclicFkMessage
    | some t =>
        match fuel with
        | 0 => .error cyclicFkMessage
        | n + 1 =>
            placeLoop n (pending.erase t) (setAdd created t.table) count
              (placed ++ [t])

/-- `get_create_schema_sql` (source lines 370-412): build all units while
collecting schema names, emit one `CREATE SCHEMA` per recorded non-default
schema, order the units, and join schema statements, ordered table
statements and deferred m2m statements with newlines.  A
`ConfigurationError` becomes `Except.error`; the instance state after the
call (mutated in either outcome) is returned alongside. -/
def get_create_schema_sql (models : List ModelDescr) (safe : Bool)
    (st : GenState) : Except String String × GenState :=
  let bu := buildUnits models safe models st
  let units := bu.1
  let st' := bu.2
  let create_schemas_sql :=
    (st'.schema_names.filter (fun s => s ≠ "public")).map (schemaCreationSql safe)
  match placeLoop units.length units [] units.length [] with
  | .error e => (.error e, st')
  | .ok placed =>
      (.ok (String.intercalate "\n"
        (create_schemas_sql ++ placed.map TUnit.table_creation_string
          ++ placed.flatMap TUnit.m2m_tables)), st')

/-- `get_create_schema_sql` with the iteration order of the CPython hash set
`self.schema_names` made explicit: `enum` is the enumeration in which the
`for schema_name in self.schema_names` loop of source line 384 sees the
set's contents.  CPython guarantees only that this is some
deterministic-within-a-process permutation of the distinct names — it is
hash-bucket order, not insertion order.  `get_create_schema_sql` is the
`enum = id` instance on the insertion-ordered carrier (one fixed admissible
enumeration); properties of the namespace-statement order must hold for
every admissible `enum` to be properties of the program. -/
def get_create_schema_sql_iter (enum : List String → List String)
    (models : List ModelDescr) (safe : Bool) (st : GenState) :
    Except String String × GenState :=
  let bu := buildUnits models safe models st
  let units := bu.1
  let st' := bu.2
  let create_schemas_sql :=
    ((enum st'.schema_names).filter (fun s => s ≠ "public")).map
      (schemaCreationSql safe)
  match placeLoop units.length units [] units.length [] with
  | .error e => (.error e, st')
  | .ok placed =>
      (.ok (String.intercalate "\n"
        (create_schemas_sql ++ placed.map TUnit.table_creation_string
          ++ placed.flatMap TUnit.m2m_tables)), st')

/-- The embedded generator is the identity-enumeration instance of the
enumeration-parametric one. -/
theorem gen_eq_iter_id (models : List ModelDescr) (safe : Bool)
    (st : GenState) :
    get_create_schema_sql models safe st
      = get_create_schema_sql_iter id models safe st := rfl

/-! ## Derived descriptions of the generator's output

The following definitions restate single aspects of `_get_table_sql` as
standalone functions (dependency set, rendered fragments, collected
comments, kept m2m relations); the characterization lemmas below prove that
the embedded source code computes exactly these. -/

/-- The effect of one field on the `references` set: reference fields that
are not rendered as a generated primary key record their target table —
regardless of `db_constraint` (source line 231 sits outside the
`if reference.db_constraint` expression). -/
def refStep (acc : List String) (fo : FieldDescr) : List String :=
  if isGeneratedPk fo then acc
  else
    match fo.reference with
    | some r => setAdd acc r.relatedTable
    | none => acc

/-- The dependency set (`references`) of a model's table-creation unit. -/
def refsOfModel (m : ModelDescr) : List String :=
  m.fields.foldl refStep []

/-- The claim's notion of the constrained-reference graph: targets of
references that carry `db_constraint=True` (spec sections 4.3 and 8).  This
follows the spec's words, for comparison with `refsOfModel`. -/
def constrainedRefsOf (m : ModelDescr) : List String :=
  m.fields.foldl
    (fun acc fo =>
      if isGeneratedPk fo then acc
      else
        match fo.reference with
        | some r => if r.db_constraint then setAdd acc r.relatedTable else acc
        | none => acc) []

/-- The effect of one field on `comments_array`: the field's own description
and, for reference fields that are not generated pks, the reference's
description, both deduplicated column comments. -/
def commentStep (m : ModelDescr) (cs : List String) (fo : FieldDescr) :
    List String :=
  let tsql := tableNameSqlString m.schema m.db_table
  let cs1 :=
    if fo.description ≠ "" then addColumnComment cs tsql fo.column fo.description
    else cs
  if isGeneratedPk fo then cs1
  else
    match fo.reference with
    | some r =>
        if r.description ≠ "" then addColumnComment cs1 tsql fo.column r.description
        else cs1
    | none => cs1

/-- Appending the table-description comment (source lines 282-289). -/
def withTableDesc (m : ModelDescr) (cs : List String) : List String :=
  if m.table_description ≠ "" then
    addTableComment cs (tableNameSqlString m.schema m.db_table) m.table_description
  else cs

/-- All comment statements generated while rendering model `m`, starting
from an empty collector: column comments in field order, then the table
comment. -/
def commentsOfModel (m : ModelDescr) : List String :=
  withTableDesc m (m.fields.foldl (commentStep m) [])

/-- The string `_post_table_hook` contributes for a given collector. -/
def hookStr (cs : List String) : String :=
  (postTableHook cs).1

/-- The single-column index requests of the field loop. -/
def idxCols (fo : FieldDescr) : List String :=
  if !isGeneratedPk fo && fo.index && !fo.pk then [fo.column] else []

/-- The `fields_to_create` list of `_get_table_sql`: one fragment per
projected field, the unique-together constraints, the (empty) inner
statements. -/
def fieldsToCreateOf (m : ModelDescr) : List String :=
  (m.fields.map (fieldFragment m)
      ++ m.unique_together.map
        (fun uts => uniqueConstraintSql m (uts.map (resolveSource m))))
    ++ innerStatements

/-- The deduplicated, non-empty index statements of a table. -/
def fieldIndexesOf (m : ModelDescr) (safe : Bool) : List String :=
  (dedupFirst ((m.fields.flatMap idxCols).map (fun c => indexSql m [c] safe)
      ++ m.indexes.map (renderIndexDecl m safe))).filter (fun s => s ≠ "")

/-- The `CREATE TABLE` statement of a model. -/
def tableCreateStmtOf (m : ModelDescr) (safe : Bool) : String :=
  "CREATE TABLE " ++ existsStr safe ++ tableNameSqlString m.schema m.db_table
    ++ " ("
    ++ ("\n    " ++ String.intercalate ",\n    " (fieldsToCreateOf m) ++ "\n")
    ++ ")" ++ tableGenerateExtra ++ ";"

/-- The table statement joined with its index statements — everything of a
unit's creation string that precedes the comment block. -/
def mainTableSql (m : ModelDescr) (safe : Bool) : String :=
  String.intercalate "\n" (tableCreateStmtOf m safe :: fieldIndexesOf m safe)

/-- The m2m skip test of source line 307, negated: a join table is rendered
when the relation is not generated and its `through` name is no declared
model's table. -/
def m2mKeep (models_tables : List String) (fo : M2MDescr) : Bool :=
  !(fo.generated || models_tables.contains fo.through)

/-- The rendered join-table statement of one kept m2m relation, including
its flushed comment suffix (the collector is empty whenever the m2m loop
runs, see `getTableSqlC_comments`). -/
def m2mSql (m : ModelDescr) (safe : Bool) (fo : M2MDescr) : String :=
  let through_table := tableNameSqlString m.schema fo.through
  let backward_fk :=
    if fo.db_constraint then
      createFkString (tableNameSqlString m.schema m.db_table) m.db_pk_column
        fo.on_delete ""
    else ""
  let forward_fk :=
    if fo.db_constraint then
      createFkString (tableNameSqlString fo.relatedSchema fo.relatedTable)
        fo.relatedPkColumn fo.on_delete ""
    else ""
  let s := "CREATE TABLE " ++ existsStr safe ++ through_table ++ " (\n    "
    ++ quote fo.backward_key ++ " " ++ m.pkType ++ " NOT NULL" ++ backward_fk
    ++ ",\n    " ++ quote fo.forward_key ++ " " ++ fo.relatedPkType
    ++ " NOT NULL" ++ forward_fk ++ "\n)" ++ tableGenerateExtra ++ ";"
  let s := if !fo.db_constraint then s.replace (",\n    ,\n    ") "" else s
  s ++ hookStr (if fo.description ≠ "" then
      addTableComment [] through_table fo.description
    else [])

/-- The units `get_create_schema_sql` feeds into the ordering loop, one per
model in declaration order (each rendered with an empty collector). -/
def unitsOf (models : List ModelDescr) (safe : Bool) : List TUnit :=
  models.map (fun m => (getTableSqlC models m safe []).1)

/-- The schema names discovered over a model list, in first-discovery
order. -/
def firstDiscovery (models : List ModelDescr) : List String :=
  models.foldl addSchema []

/-! ## Characterization lemmas for the field loop -/

theorem fieldStep_refs (m : ModelDescr) (acc : FieldAcc) (fo : FieldDescr) :
    (fieldStep m acc fo).refs = refStep acc.refs fo := by
  simp only [fieldStep, refStep]
  split
  · rfl
  · cases fo.reference <;> rfl

theorem fieldStep_frags (m : ModelDescr) (acc : FieldAcc) (fo : FieldDescr) :
    (fieldStep m acc fo).frags = acc.frags ++ [fieldFragment m fo] := by
  simp only [fieldStep]
  split
  · rfl
  · cases fo.reference <;> rfl

theorem fieldStep_withIdx (m : ModelDescr) (acc : FieldAcc) (fo : FieldDescr) :
    (fieldStep m acc fo).withIdx = acc.withIdx ++ idxCols fo := by
  simp only [fieldStep, idxCols]
  split
  · next h => simp [h]
  · next h =>
      cases fo.reference <;> simp [h]

theorem fieldStep_comments (m : ModelDescr) (acc : FieldAcc) (fo : FieldDescr) :
    (fieldStep m acc fo).comments = commentStep m acc.comments fo := by
  simp only [fieldStep, commentStep]
  split
  · rfl
  · cases fo.reference <;> rfl

theorem foldl_fieldStep_refs (m : ModelDescr) (l : List FieldDescr)
    (acc : FieldAcc) :
    (l.foldl (fieldStep m) acc).refs = l.foldl refStep acc.refs := by
  induction l generalizing acc with
  | nil => rfl
  | cons f t ih => simp [List.foldl_cons, ih, fieldStep_refs]

theorem foldl_fieldStep_frags (m : ModelDescr) (l : List FieldDescr)
    (acc : FieldAcc) :
    (l.foldl (fieldStep m) acc).frags = acc.frags ++ l.map (fieldFragment m) := by
  induction l generalizing acc with
  | nil => simp
  | cons f t ih => simp [List.foldl_cons, ih, fieldStep_frags]

theorem foldl_fieldStep_withIdx (m : ModelDescr) (l : List FieldDescr)
    (acc : FieldAcc) :
    (l.foldl (fieldStep m) acc).withIdx = acc.withIdx ++ l.flatMap idxCols := by
  induction l generalizing acc with
  | nil => simp
  | cons f t ih => simp [List.foldl_cons, ih, fieldStep_withIdx]

theorem foldl_fieldStep_comments (m : ModelDescr) (l : List FieldDescr)
    (acc : FieldAcc) :
    (l.foldl (fieldStep m) acc).comments = l.foldl (commentStep m) acc.comments := by
  induction l generalizing acc with
  | nil => rfl
  | cons f t ih => simp [List.foldl_cons, ih, fieldStep_comments]

/-! ## Characterization lemmas for the m2m loop and `_get_table_sql` -/

theorem m2mStep_skip {mt : List String} {m : ModelDescr} {safe : Bool}
    {acc : List String × List String} {fo : M2MDescr}
    (h : (fo.generated || mt.contains fo.through) = true) :
    m2mStep mt m safe acc fo = acc := by
  unfold m2mStep
  exact if_pos h

theorem m2mStep_keep {mt : List String} {m : ModelDescr} {safe : Bool}
    {ss : List String} {fo : M2MDescr}
    (h : (fo.generated || mt.contains fo.through) = false) :
    m2mStep mt m safe (ss, []) fo = (ss ++ [m2mSql m safe fo], []) := by
  unfold m2mStep
  rw [if_neg (by intro hc; cases hc.symm.trans h)]
  rfl

theorem m2mStep_char (models_tables : List String) (m : ModelDescr)
    (safe : Bool) (l : List M2MDescr) (ss : List String) :
    l.foldl (m2mStep models_tables m safe) (ss, []) =
      (ss ++ (l.filter (m2mKeep models_tables)).map (m2mSql m safe), []) := by
  induction l generalizing ss with
  | nil => simp
  | cons fo t ih =>
      cases h : (fo.generated || models_tables.contains fo.through) with
      | true =>
          have hk : m2mKeep models_tables fo = false := by
            unfold m2mKeep
            rw [h]
            rfl
          rw [List.foldl_cons, m2mStep_skip h, ih, List.filter_cons, hk]
          simp
      | false =>
          have hk : m2mKeep models_tables fo = true := by
            unfold m2mKeep
            rw [h]
            rfl
          rw [List.foldl_cons, m2mStep_keep h, ih, List.filter_cons, hk]
          simp

theorem getTableSqlC_char (models : List ModelDescr) (m : ModelDescr)
    (safe : Bool) (cs0 : List String) :
    getTableSqlC models m safe cs0 =
      (⟨m.db_table, m.schema,
        mainTableSql m safe
          ++ hookStr (withTableDesc m (m.fields.foldl (commentStep m) cs0)),
        refsOfModel m,
        (m.m2m_fields.filter (m2mKeep (models.map ModelDescr.db_table))).map
          (m2mSql m safe)⟩,
       []) := by
  simp only [getTableSqlC, postTableHook]
  rw [m2mStep_char]
  simp only [foldl_fieldStep_refs, foldl_fieldStep_frags, foldl_fieldStep_withIdx,
    foldl_fieldStep_comments]
  simp only [refsOfModel, mainTableSql, tableCreateStmtOf, fieldsToCreateOf,
    fieldIndexesOf, hookStr, withTableDesc, postTableHook, List.nil_append]

/-- The collector is empty after every `_get_table_sql` call, whatever it
contained before: the post-table hook at source line 303 clears it and the
m2m loop re-clears it after each join table. -/
theorem getTableSqlC_comments (models : List ModelDescr) (m : ModelDescr)
    (safe : Bool) (cs0 : List String) :
    (getTableSqlC models m safe cs0).2 = [] := by
  rw [getTableSqlC_char]

/-! ## The per-model loop of `get_create_schema_sql` -/

theorem buildUnits_schema_names (all : List ModelDescr) (safe : Bool)
    (ms : List ModelDescr) (st : GenState) :
    (buildUnits all safe ms st).2.schema_names =
      ms.foldl addSchema st.schema_names := by
  induction ms generalizing st with
  | nil => rfl
  | cons m t ih => simp [buildUnits, ih]

theorem buildUnits_comments (all : List ModelDescr) (safe : Bool)
    (ms : List ModelDescr) (st : GenState) (h : st.comments_array = []) :
    (buildUnits all safe ms st).2.comments_array = [] := by
  induction ms generalizing st with
  | nil => simpa [buildUnits] using h
  | cons m t ih => simp [buildUnits, ih, getTableSqlC_comments]

theorem buildUnits_units (all : List ModelDescr) (safe : Bool)
    (ms : List ModelDescr) (st : GenState) (h : st.comments_array = []) :
    (buildUnits all safe ms st).1 =
      ms.map (fun m => (getTableSqlC all m safe []).1) := by
  induction ms generalizing st with
  | nil => rfl
  | cons m t ih =>
      simp only [buildUnits, h, List.map_cons]
      exact congrArg (List.cons _) (ih _ (getTableSqlC_comments all m safe []))

/-- The result of `get_create_schema_sql` as a function of the models, the
`safe` flag, and the final content of `schema_names`. -/
def genResult (models : List ModelDescr) (safe : Bool) (names : List String) :
    Except String String :=
  match placeLoop (unitsOf models safe).length (unitsOf models safe) []
      (unitsOf models safe).length [] with
  | .error e => .error e
  | .ok placed =>
      .ok (String.intercalate "\n"
        ((names.filter (fun s => s ≠ "public")).map (schemaCreationSql safe)
          ++ placed.map TUnit.table_creation_string
          ++ placed.flatMap TUnit.m2m_tables))

theorem buildUnits_units_self (models : List ModelDescr) (safe : Bool)
    (st : GenState) (h : st.comments_array = []) :
    (buildUnits models safe models st).1 = unitsOf models safe :=
  buildUnits_units models safe models st h

theorem genstate_eq {a b : GenState}
    (h1 : a.comments_array = b.comments_array)
    (h2 : a.schema_names = b.schema_names) : a = b := by
  cases a
  cases b
  cases h1
  cases h2
  rfl

theorem gen_fst (models : List ModelDescr) (safe : Bool) (st : GenState)
    (h : st.comments_array = []) :
    (get_create_schema_sql models safe st).1 =
      genResult models safe (models.foldl addSchema st.schema_names) := by
  simp only [get_create_schema_sql, genResult]
  rw [buildUnits_units_self _ _ _ h, buildUnits_schema_names]
  cases hp : placeLoop (unitsOf models safe).length (unitsOf models safe) []
      (unitsOf models safe).length [] with
  | error e => simp [hp]
  | ok placed => simp [hp]

theorem gen_iter_fst (enum : List String → List String)
    (models : List ModelDescr) (safe : Bool) (st : GenState)
    (h : st.comments_array = []) :
    (get_create_schema_sql_iter enum models safe st).1 =
      genResult models safe (enum (models.foldl addSchema st.schema_names)) := by
  simp only [get_create_schema_sql_iter, genResult]
  rw [buildUnits_units_self _ _ _ h, buildUnits_schema_names]
  cases hp : placeLoop (unitsOf models safe).length (unitsOf models safe) []
      (unitsOf models safe).length [] with
  | error e => simp [hp]
  | ok placed => simp [hp]

theorem gen_snd (models : List ModelDescr) (safe : Bool) (st : GenState)
    (h : st.comments_array = []) :
    (get_create_schema_sql models safe st).2 =
      ⟨[], models.foldl addSchema st.schema_names⟩ := by
  simp only [get_create_schema_sql]
  have hc := buildUnits_comments models safe models st h
  have hs := buildUnits_schema_names models safe models st
  cases hp : placeLoop (buildUnits models safe models st).1.length
      (buildUnits models safe models st).1 []
      (buildUnits models safe models st).1.length [] with
  | error e =>
      simp only [hp]
      exact genstate_eq hc hs
  | ok placed =>
      simp only [hp]
      exact genstate_eq hc hs

/-! ## Idempotency of schema-name discovery -/

theorem mem_setAdd_self (l : List String) (x : String) : x ∈ setAdd l x := by
  unfold setAdd
  split
  · next hc => simpa using hc
  · simp

theorem mem_setAdd_of_mem (l : List String) (x y : String) (h : y ∈ l) :
    y ∈ setAdd l x := by
  unfold setAdd
  split
  · exact h
  · exact List.mem_append_left _ h

theorem setAdd_of_mem (l : List String) (x : String) (h : x ∈ l) :
    setAdd l x = l := by
  unfold setAdd
  rw [if_pos (by simpa using h)]

theorem mem_addSchema_of_mem (l : List String) (m : ModelDescr) (y : String)
    (h : y ∈ l) : y ∈ addSchema l m := by
  unfold addSchema
  cases m.schema with
  | none => exact h
  | some s => exact mem_setAdd_of_mem _ _ _ h

theorem mem_foldl_addSchema_of_mem (ms : List ModelDescr) (l : List String)
    (y : String) (h : y ∈ l) : y ∈ ms.foldl addSchema l := by
  induction ms generalizing l with
  | nil => exact h
  | cons m t ih => exact ih _ (mem_addSchema_of_mem _ _ _ h)

theorem addSchema_of_some {m : ModelDescr} {s : String} (hs : m.schema = some s)
    (l : List String) : addSchema l m = setAdd l s := by
  unfold addSchema
  rw [hs]

theorem addSchema_of_none {m : ModelDescr} (hs : m.schema = none)
    (l : List String) : addSchema l m = l := by
  unfold addSchema
  rw [hs]

theorem schema_mem_foldl_addSchema {ms : List ModelDescr} {m : ModelDescr}
    (hm : m ∈ ms) {s : String} (hs : m.schema = some s) :
    ∀ l : List String, s ∈ ms.foldl addSchema l := by
  induction hm with
  | head t =>
      intro l
      rw [List.foldl_cons, addSchema_of_some hs]
      exact mem_foldl_addSchema_of_mem _ _ _ (mem_setAdd_self _ _)
  | tail m0 hm' ih =>
      intro l
      rw [List.foldl_cons]
      exact ih (addSchema l m0)

theorem foldl_addSchema_of_covered (ms : List ModelDescr) (l : List String)
    (h : ∀ m ∈ ms, ∀ s, m.schema = some s → s ∈ l) :
    ms.foldl addSchema l = l := by
  induction ms with
  | nil => rfl
  | cons m t ih =>
      have h0 : addSchema l m = l := by
        cases hs : m.schema with
        | none => exact addSchema_of_none hs l
        | some s => rw [addSchema_of_some hs]
                    exact setAdd_of_mem _ _ (h m (by simp) s hs)
      rw [List.foldl_cons, h0]
      exact ih (fun m' hm' s hs => h m' (List.mem_cons_of_mem _ hm') s hs)

/-- Re-discovering the same models' schemas is a no-op. -/
theorem foldl_addSchema_idem (ms : List ModelDescr) (l : List String) :
    ms.foldl addSchema (ms.foldl addSchema l) = ms.foldl addSchema l := by
  apply foldl_addSchema_of_covered
  intro m hm s hs
  exact schema_mem_foldl_addSchema hm hs l

/-! ## Correctness of the dependency-ordering loop -/

theorem setAdd_of_not_mem {l : List String} {x : String} (h : x ∉ l) :
    setAdd l x = l ++ [x] := by
  unfold setAdd
  rw [if_neg]
  intro hc
  exact h (by simpa using hc)

/-- Decidable check that a placement order respects dependencies: starting
from the already-created tables `created`, each unit in turn is placeable —
all its references are previously created tables or the unit itself. -/
def respectsDeps (created : List String) : List TUnit → Bool
  | [] => true
  | t :: ts => placeable created t && respectsDeps (created ++ [t.table]) ts

/-- Greedy placement succeeds on an acyclic dependency graph.  `rank` is a
topological numbering witnessing acyclicity: every non-self reference edge
strictly decreases it.  Starting from any split `placed ++ pending` of the
units, the loop completes the placement and the produced order respects all
non-self dependencies. -/
theorem placeLoop_sound (rank : String → Nat) (units : List TUnit)
    (hnd : (units.map TUnit.table).Nodup)
    (hcl : ∀ u ∈ units, ∀ r ∈ u.references, r ∈ units.map TUnit.table)
    (hrk : ∀ u ∈ units, ∀ v ∈ units, v.table ∈ u.references →
      v.table ≠ u.table → rank v.table < rank u.table) :
    ∀ (fuel : Nat) (pending placed : List TUnit),
      pending.length ≤ fuel →
      units.Perm (placed ++ pending) →
      ∃ rest, placeLoop fuel pending (placed.map TUnit.table) units.length placed
          = .ok (placed ++ rest) ∧
        (placed ++ rest).Perm units ∧
        respectsDeps (placed.map TUnit.table) rest = true := by
  intro n
  induction n with
  | zero =>
      intro pending placed hlen hperm
      have hpe : pending = [] := List.eq_nil_of_length_eq_zero (Nat.le_zero.mp hlen)
      subst hpe
      have hlp : units.length = placed.length := by
        simpa using hperm.length_eq
      refine ⟨[], ?_, by simpa using hperm.symm, rfl⟩
      rw [placeLoop, if_pos (by simp [hlp])]
      simp
  | succ n ih =>
      intro pending placed hlen hperm
      have hlp : units.length = placed.length + pending.length := by
        simpa using hperm.length_eq
      by_cases hstop : (placed.map TUnit.table).length = units.length
      · have hpl : pending.length = 0 := by
          rw [List.length_map] at hstop
          omega
        have hpe : pending = [] := List.eq_nil_of_length_eq_zero hpl
        subst hpe
        refine ⟨[], ?_, by simpa using hperm.symm, rfl⟩
        rw [placeLoop, if_pos hstop]
        simp
      · have hne : pending ≠ [] := by
          intro hcon
          subst hcon
          rw [List.length_map] at hstop
          simp at hlp
          omega
        -- a pending unit of minimal rank is placeable
        have hex : ∃ u ∈ pending,
            placeable (placed.map TUnit.table) u = true := by
          cases hmin : pending.argmin (fun u => rank u.table) with
          | none => exact absurd (List.argmin_eq_none.mp hmin) hne
          | some u0 =>
              have hu0arg : u0 ∈ pending.argmin (fun u => rank u.table) := by
                rw [hmin]
                rfl
              have hu0mem : u0 ∈ pending := List.argmin_mem hu0arg
              refine ⟨u0, hu0mem, ?_⟩
              rw [placeable, List.all_eq_true]
              intro r hr
              by_cases hrm : r = u0.table
              · simp [hrm]
              · have hu0u : u0 ∈ units :=
                  hperm.mem_iff.mpr (List.mem_append_right _ hu0mem)
                have hrt : r ∈ units.map TUnit.table := hcl u0 hu0u r hr
                obtain ⟨v, hvu, hvt⟩ := List.mem_map.mp hrt
                have hv2 : v ∈ placed ++ pending := hperm.mem_iff.mp hvu
                cases List.mem_append.mp hv2 with
                | inl hvp =>
                    have : r ∈ placed.map TUnit.table :=
                      hvt ▸ List.mem_map_of_mem TUnit.table hvp
                    simp [this]
                | inr hvp =>
                    have hlt : rank v.table < rank u0.table :=
                      hrk u0 hu0u v hvu (hvt.symm ▸ hr) (by rw [hvt]; exact hrm)
                    have hge := List.le_of_mem_argmin hvp hu0arg
                    have hge' : rank u0.table ≤ rank v.table := hge
                    omega
        cases hf : pending.find? (placeable (placed.map TUnit.table)) with
        | none =>
            obtain ⟨u, hu, hpu⟩ := hex
            rw [List.find?_eq_none] at hf
            exact absurd hpu (by simpa using hf u hu)
        | some t =>
            have hpt : placeable (placed.map TUnit.table) t = true :=
              List.find?_some hf
            have htp : t ∈ pending := List.mem_of_find?_eq_some hf
            -- the placed table names and pending table names are disjoint
            have hnd2 : (placed.map TUnit.table ++ pending.map TUnit.table).Nodup := by
              have : (units.map TUnit.table).Perm
                  (placed.map TUnit.table ++ pending.map TUnit.table) := by
                have := hperm.map TUnit.table
                simpa using this
              exact this.nodup hnd
            have htc : t.table ∉ placed.map TUnit.table := by
              obtain ⟨_, _, hdisj⟩ := List.nodup_append.mp hnd2
              intro hcon
              exact hdisj hcon (List.mem_map_of_mem TUnit.table htp)
            have hset : setAdd (placed.map TUnit.table) t.table
                = (placed ++ [t]).map TUnit.table := by
              rw [setAdd_of_not_mem htc]
              simp
            have hperm' : units.Perm ((placed ++ [t]) ++ pending.erase t) := by
              have h1 : pending.Perm (t :: pending.erase t) :=
                List.perm_cons_erase htp
              have h2 : (placed ++ pending).Perm
                  ((placed ++ [t]) ++ pending.erase t) := by
                rw [List.append_assoc]
                exact h1.append_left placed
              exact hperm.trans h2
            have hlen' : (pending.erase t).length ≤ n := by
              have := List.length_erase_of_mem htp
              have hp0 : 0 < pending.length :=
                List.length_pos.mpr (List.ne_nil_of_mem htp)
              omega
            obtain ⟨rest', heq, hpermtot, hrd⟩ := ih (pending.erase t)
              (placed ++ [t]) hlen' hperm'
            refine ⟨t :: rest', ?_, ?_, ?_⟩
            · rw [placeLoop, if_neg hstop]
              split
              · next heq0 => rw [hf] at heq0; exact Option.noConfusion heq0
              · next t' heq0 =>
                  rw [hf] at heq0
                  injection heq0 with h'
                  subst h'
                  show placeLoop n (pending.erase t)
                    (setAdd (placed.map TUnit.table) t.table) units.length
                    (placed ++ [t]) = _
                  rw [hset, heq]
                  rw [List.append_assoc]
                  rfl
            · have : placed ++ t :: rest' = (placed ++ [t]) ++ rest' := by
                rw [List.append_assoc]
                rfl
              rw [this]
              exact hpermtot
            · rw [respectsDeps]
              rw [hpt]
              have : placed.map TUnit.table ++ [t.table]
                  = (placed ++ [t]).map TUnit.table := by simp
              rw [this, hrd]
              rfl

/-- Greedy placement gets stuck on a dependency cycle: if a nonempty set `S`
of pending units is closed in the sense that every member holds a non-self
reference to another member's table, no member of `S` can ever be placed and
the loop ends in the cyclic-dependency error. -/
theorem placeLoop_stuck (S : List TUnit) (hS : S ≠ [])
    (hcyc : ∀ u ∈ S, ∃ v ∈ S, v.table ∈ u.references ∧ v.table ≠ u.table) :
    ∀ (fuel : Nat) (pending placed : List TUnit) (created : List String)
      (count : Nat),
      pending.length ≤ fuel →
      S ⊆ pending →
      (pending.map TUnit.table ++ created).Nodup →
      created.length + pending.length = count →
      placeLoop fuel pending created count placed = .error cyclicFkMessage := by
  intro n
  induction n with
  | zero =>
      intro pending placed created count hlen hsub _ _
      have hpe : pending = [] := List.eq_nil_of_length_eq_zero (Nat.le_zero.mp hlen)
      subst hpe
      obtain ⟨u, hu⟩ := List.exists_mem_of_ne_nil S hS
      exact absurd (hsub hu) (List.not_mem_nil u)
  | succ n ih =>
      intro pending placed created count hlen hsub hnd hcount
      have hne : pending ≠ [] := by
        intro hcon
        subst hcon
        obtain ⟨u, hu⟩ := List.exists_mem_of_ne_nil S hS
        exact absurd (hsub hu) (List.not_mem_nil u)
      have hstop : ¬(created.length = count) := by
        have hp0 : 0 < pending.length := List.length_pos.mpr hne
        omega
      rw [placeLoop, if_neg hstop]
      split
      · rfl
      · next t heq =>
          have hpt : placeable created t = true := List.find?_some heq
          have htp : t ∈ pending := List.mem_of_find?_eq_some heq
          -- pending tables and created tables are disjoint
          obtain ⟨_, _, hdisj⟩ := List.nodup_append.mp hnd
          -- the found unit cannot belong to S
          have htS : t ∉ S := by
            intro htS
            obtain ⟨v, hvS, hvr, hvne⟩ := hcyc t htS
            have hvpend : v ∈ pending := hsub hvS
            rw [placeable, List.all_eq_true] at hpt
            have h' := hpt v.table hvr
            simp only [Bool.or_eq_true, beq_iff_eq] at h'
            rcases h' with hc | hc
            · exact hdisj (List.mem_map_of_mem TUnit.table hvpend) (by simpa using hc)
            · exact hvne hc
          have hsub' : S ⊆ pending.erase t := by
            intro u hu
            have hut : u ≠ t := fun hq => htS (hq ▸ hu)
            exact (List.mem_erase_of_ne hut).mpr (hsub hu)
          have htpc : t.table ∉ created := fun hcon =>
            hdisj (List.mem_map_of_mem TUnit.table htp) hcon
          have hnd' : ((pending.erase t).map TUnit.table
              ++ setAdd created t.table).Nodup := by
            rw [setAdd_of_not_mem htpc]
            have h1 : pending.Perm (t :: pending.erase t) :=
              List.perm_cons_erase htp
            have h2 : (pending.map TUnit.table).Perm
                (t.table :: (pending.erase t).map TUnit.table) := by
              simpa using h1.map TUnit.table
            have h3 : (pending.map TUnit.table ++ created).Perm
                (t.table :: ((pending.erase t).map TUnit.table ++ created)) := by
              have := h2.append_right created
              simpa using this
            have h4 : (t.table :: ((pending.erase t).map TUnit.table ++ created)).Perm
                (((pending.erase t).map TUnit.table ++ created) ++ [t.table]) :=
              (List.perm_append_singleton _ _).symm
            have h5 := (h3.trans h4).nodup hnd
            rw [List.append_assoc] at h5
            exact h5
          have hp0 : 0 < pending.length := List.length_pos.mpr hne
          have hle : (pending.erase t).length ≤ n := by
            have := List.length_erase_of_mem htp
            omega
          have hcount' : (setAdd created t.table).length
              + (pending.erase t).length = count := by
            rw [setAdd_of_not_mem htpc]
            have := List.length_erase_of_mem htp
            simp only [List.length_append, List.length_singleton]
            omega
          show placeLoop n (pending.erase t) (setAdd created t.table) count
            (placed ++ [t]) = _
          exact ih (pending.erase t) (placed ++ [t]) (setAdd created t.table)
            count hle hsub' hnd' hcount'


/-! ## Further helper lemmas -/

theorem intercalate_go_exists (sep : String) :
    ∀ (l : List String) (acc : String),
      ∃ r, String.intercalate.go acc sep l = acc ++ r := by
  intro l
  induction l with
  | nil =>
      intro acc
      refine ⟨"", ?_⟩
      show acc = acc ++ ""
      simp
  | cons a as ih =>
      intro acc
      obtain ⟨r, hr⟩ := ih (acc ++ sep ++ a)
      refine ⟨sep ++ a ++ r, ?_⟩
      show String.intercalate.go (acc ++ sep ++ a) sep as = _
      rw [hr]
      simp [String.append_assoc]

/-- A joined nonempty list of statements starts with its first statement. -/
theorem intercalate_cons_exists (sep a : String) (l : List String) :
    ∃ r, String.intercalate sep (a :: l) = a ++ r := by
  obtain ⟨r, hr⟩ := intercalate_go_exists sep l a
  exact ⟨r, hr⟩

theorem mem_foldl_refStep_of_mem (l : List FieldDescr) (acc : List String)
    (y : String) (h : y ∈ acc) : y ∈ l.foldl refStep acc := by
  induction l generalizing acc with
  | nil => exact h
  | cons fo t ih =>
      apply ih
      unfold refStep
      split
      · exact h
      · split
        · exact mem_setAdd_of_mem _ _ _ h
        · exact h

theorem mem_refsOfModel {m : ModelDescr} {fo : FieldDescr} {r : ReferenceDescr}
    (hfo : fo ∈ m.fields) (href : fo.reference = some r)
    (hgen : isGeneratedPk fo = false) : r.relatedTable ∈ refsOfModel m := by
  unfold refsOfModel
  have main : ∀ (l : List FieldDescr) (acc : List String), fo ∈ l →
      r.relatedTable ∈ l.foldl refStep acc := by
    intro l
    induction l with
    | nil =>
        intro acc hc
        cases hc
    | cons f t ih =>
        intro acc hc
        cases hc with
        | head =>
            rw [List.foldl_cons]
            apply mem_foldl_refStep_of_mem
            unfold refStep
            rw [hgen, href]
            simp only [Bool.false_eq_true, if_false]
            exact mem_setAdd_self _ _
        | tail _ hmem => exact ih _ hmem
  exact main m.fields [] hfo

theorem unitsOf_tables (models : List ModelDescr) (safe : Bool) :
    (unitsOf models safe).map TUnit.table = models.map ModelDescr.db_table := by
  unfold unitsOf
  rw [List.map_map]
  apply List.map_congr_left
  intro m _
  rw [Function.comp_apply, getTableSqlC_char]

theorem setAdd_nodup (l : List String) (x : String) (h : l.Nodup) :
    (setAdd l x).Nodup := by
  unfold setAdd
  split
  · exact h
  · next hc =>
      have hx : x ∉ l := by
        intro hm
        exact hc (by simpa using hm)
      simp [List.nodup_append, h, hx]

theorem addSchema_nodup (l : List String) (m : ModelDescr) (h : l.Nodup) :
    (addSchema l m).Nodup := by
  unfold addSchema
  cases m.schema with
  | none => exact h
  | some s => exact setAdd_nodup _ _ h

theorem foldl_addSchema_nodup (ms : List ModelDescr) (l : List String)
    (h : l.Nodup) : (ms.foldl addSchema l).Nodup := by
  induction ms generalizing l with
  | nil => exact h
  | cons m t ih => exact ih _ (addSchema_nodup _ _ h)

/-- The discovered namespaces carry no duplicates: one creation statement
per distinct schema. -/
theorem firstDiscovery_nodup (models : List ModelDescr) :
    (firstDiscovery models).Nodup :=
  foldl_addSchema_nodup models [] List.nodup_nil

/-! ## Concrete fixture models for witnesses and counterexamples -/

/-- A generated integer primary key, as on the test models. -/
def mkPk : FieldDescr :=
  { name := "id"
    column := "id"
    sqlType := "INT"
    null := false
    unique := false
    pk := true
    generated := true
    generatedSql := "SERIAL NOT NULL PRIMARY KEY"
    index := false
    description := ""
    dflt := .pyNone
    auto_now_add := false
    auto_now := false
    isNonInlinable := false
    source_field := ""
    reference := none }

/-- A plain foreign-key column targeting `target.id`, with the given
`db_constraint` flag. -/
def fkField (col target : String) (constrained : Bool) : FieldDescr :=
  { name := col
    column := col
    sqlType := "INT"
    null := false
    unique := false
    pk := false
    generated := false
    generatedSql := ""
    index := false
    description := ""
    dflt := .pyNone
    auto_now_add := false
    auto_now := false
    isNonInlinable := false
    source_field := ""
    reference := some { relatedTable := target
                        relatedSchema := none
                        toFieldSource := "id"
                        toFieldModelName := "id"
                        onDelete := "CASCADE"
                        db_constraint := constrained
                        description := "" } }

/-- A minimal model in the default namespace. -/
def mkModel (t : String) (fs : List FieldDescr) : ModelDescr :=
  { db_table := t
    schema := none
    table_description := ""
    fields := fs
    unique_together := []
    indexes := []
    m2m_fields := []
    db_pk_column := "id"
    pkType := "INT" }

/-- A model `a` holding an unconstrained reference to `b`. -/
def mAunc : ModelDescr := mkModel "a" [mkPk, fkField "b_id" "b" false]

/-- A model `b` holding an unconstrained reference to `a`. -/
def mBunc : ModelDescr := mkModel "b" [mkPk, fkField "a_id" "a" false]

/-- A model `a` holding a constrained reference to `b`. -/
def mAcon : ModelDescr := mkModel "a" [mkPk, fkField "b_id" "b" true]

/-- A model `b` holding a constrained reference to `a`. -/
def mBcon : ModelDescr := mkModel "b" [mkPk, fkField "a_id" "a" true]

/-- A standalone model. -/
def mParent : ModelDescr := mkModel "p" [mkPk]

/-- A model with a constrained reference to `mParent`. -/
def mChild : ModelDescr := mkModel "c" [mkPk, fkField "p_id" "p" true]

/-- A model with a constrained self-reference. -/
def mSelf : ModelDescr := mkModel "s" [mkPk, fkField "s_id" "s" true]

/-- A model placed in the non-default namespace `s1`. -/
def mS1 : ModelDescr :=
  { mkModel "t1" [mkPk] with schema := some "s1" }

/-- A model placed in the non-default namespace `s2`, discovered after
`s1`. -/
def mS2 : ModelDescr :=
  { mkModel "t3" [mkPk] with schema := some "s2" }

/-- A field with a callable default (like the test models' token field). -/
def tokenField : FieldDescr :=
  { mkPk with name := "token"
              column := "token"
              sqlType := "VARCHAR(100)"
              pk := false
              generated := false
              generatedSql := ""
              unique := true
              dflt := .pyCallable }

/-- A `DatetimeField(auto_now=True)` descriptor carrying only the auto-now
marker: no literal default and no auto-now-add marker (the spec's data model,
section 3, lists the markers as mutually exclusive default shapes). -/
def autoNowOnlyField : FieldDescr :=
  { mkPk with name := "modified"
              column := "modified"
              sqlType := "TIMESTAMPTZ"
              pk := false
              generated := false
              generatedSql := ""
              auto_now := true }

/-- A many-to-many relation whose `through` table is `t2`. -/
def m2mThroughT2 : M2MDescr :=
  { generated := false
    through := "t2"
    backward_key := "e_id"
    forward_key := "t2_id"
    on_delete := "CASCADE"
    db_constraint := true
    description := ""
    relatedTable := "t2"
    relatedSchema := none
    relatedPkColumn := "id"
    relatedPkType := "INT" }

/-- A declared model whose table coincides with the m2m join table. -/
def mT2 : ModelDescr := mkModel "t2" [mkPk]

/-- A model with a many-to-many relation through the declared table `t2`. -/
def mEvent : ModelDescr :=
  { mkModel "e" [mkPk] with m2m_fields := [m2mThroughT2] }

deriving instance DecidableEq for Except

/-! ## The claims -/

/-- Claim C1, counterexample to the claim as stated: in the two-model system
where each model holds an *unconstrained* reference to the other, the
dependency graph restricted to constrained references has no edge at all
(both constrained-reference sets are empty), yet `get_create_schema_sql`
does not succeed — it raises the cyclic-dependency configuration error,
because the source records a `references` entry irrespective of
`db_constraint` (source line 231 sits outside the constraint conditional). -/
theorem c1_counterexample :
    constrainedRefsOf mAunc = [] ∧ constrainedRefsOf mBunc = [] ∧
    (get_create_schema_sql [mAunc, mBunc] true initState).1
      = Except.error cyclicFkMessage := by
  refine ⟨rfl, rfl, ?_⟩
  decide

/-- Claim C1 (amended): the ordering guarantee holds for the dependency
graph over *all* recorded single-valued references — constrained or not —
rather than the constrained ones only.  For every model whose units carry
distinct table names, whose references all resolve to declared tables, and
whose non-self reference edges admit a topological numbering `rank`
(acyclicity), `get_create_schema_sql` succeeds; the placement order is a
permutation of the units in which every unit follows all tables it
references (`respectsDeps` checks each unit's references against the
previously placed tables *and the unit's own table*, so a self-reference
never blocks placement), and the script is the newline-join of namespace
statements, ordered table statements and deferred join-table statements. -/
theorem c1_acyclic_ordering (models : List ModelDescr) (safe : Bool)
    (st : GenState) (rank : String → Nat)
    (hst : st.comments_array = [])
    (hnd : ((unitsOf models safe).map TUnit.table).Nodup)
    (hcl : ∀ u ∈ unitsOf models safe, ∀ r ∈ u.references,
      r ∈ (unitsOf models safe).map TUnit.table)
    (hrk : ∀ u ∈ unitsOf models safe, ∀ v ∈ unitsOf models safe,
      v.table ∈ u.references → v.table ≠ u.table →
      rank v.table < rank u.table) :
    ∃ placed : List TUnit,
      placed.Perm (unitsOf models safe) ∧
      respectsDeps [] placed = true ∧
      (get_create_schema_sql models safe st).1 = Except.ok
        (String.intercalate "\n"
          ((((models.foldl addSchema st.schema_names).filter
              (fun x => x ≠ "public")).map (schemaCreationSql safe))
            ++ placed.map TUnit.table_creation_string
            ++ placed.flatMap TUnit.m2m_tables)) := by
  obtain ⟨rest, heq, hperm, hrd⟩ := placeLoop_sound rank (unitsOf models safe)
    hnd hcl hrk (unitsOf models safe).length (unitsOf models safe) []
    (le_refl _) (by simp)
  refine ⟨rest, by simpa using hperm, by simpa using hrd, ?_⟩
  rw [gen_fst _ _ _ hst]
  unfold genResult
  rw [show placeLoop (unitsOf models safe).length (unitsOf models safe) []
      (unitsOf models safe).length [] = Except.ok rest from by simpa using heq]

/-- Claim C1 witness: a parent/child pair plus a self-referencing table.
The constrained graph is acyclic (rank: parent 0, others 1) and the
self-reference does not block placement. -/
theorem c1_acyclic_ordering_witness :
    ∃ placed : List TUnit,
      placed.Perm (unitsOf [mChild, mParent, mSelf] true) ∧
      respectsDeps [] placed = true ∧
      (get_create_schema_sql [mChild, mParent, mSelf] true initState).1
        = Except.ok (String.intercalate "\n"
          (((([mChild, mParent, mSelf].foldl addSchema
              initState.schema_names).filter
              (fun x => x ≠ "public")).map (schemaCreationSql true))
            ++ placed.map TUnit.table_creation_string
            ++ placed.flatMap TUnit.m2m_tables)) :=
  c1_acyclic_ordering [mChild, mParent, mSelf] true initState
    (fun t => if t = "p" then 0 else 1) rfl (by decide) (by decide) (by decide)

/-- Claim C2, in two parts.  First, the literal stuck-state property: at any
loop state with tables still to create where no pending unit has its
dependency set contained in the created tables plus itself, the ordering
loop raises the configuration error whose message (`cyclicFkMessage`, "Can't
create schema due to cyclic fk references") identifies a cyclic foreign-key
situation — and an `Except.error` carries no script, so no partial output
escapes.  Second, at the `get_create_schema_sql` level: a nonempty set of
units that is cyclically closed (every member holds a reference to another
member's table — in particular two entities each holding a constrained
reference to the other) forces such a stuck state, so the whole call errors
with that message. -/
theorem c2_cycle_detection (models : List ModelDescr) (safe : Bool)
    (st : GenState) (S : List TUnit)
    (hst : st.comments_array = [])
    (hnd : ((unitsOf models safe).map TUnit.table).Nodup)
    (hS : S ≠ [])
    (hsub : S ⊆ unitsOf models safe)
    (hcyc : ∀ u ∈ S, ∃ v ∈ S, v.table ∈ u.references ∧ v.table ≠ u.table) :
    (∀ (fuel : Nat) (pending placed : List TUnit) (created : List String)
      (count : Nat), ¬(created.length = count) →
      (∀ t ∈ pending, placeable created t = false) →
      placeLoop fuel pending created count placed
        = Except.error cyclicFkMessage) ∧
    (get_create_schema_sql models safe st).1
      = Except.error cyclicFkMessage := by
  constructor
  · intro fuel pending placed created count hc hall
    have hf : pending.find? (placeable created) = none := by
      rw [List.find?_eq_none]
      intro x hx
      simp [hall x hx]
    rw [placeLoop, if_neg hc]
    split
    · rfl
    · next t heq =>
        rw [hf] at heq
        exact Option.noConfusion heq
  · rw [gen_fst _ _ _ hst]
    unfold genResult
    rw [placeLoop_stuck S hS hcyc (unitsOf models safe).length
      (unitsOf models safe) [] [] (unitsOf models safe).length (le_refl _) hsub
      (by simpa using hnd) (by simp)]

/-- Claim C2 witness: two entities each holding a constrained reference to
the other; their initial pending state is already stuck, and generation
fails with the cyclic-dependency error. -/
theorem c2_cycle_detection_witness :
    placeLoop 2 (unitsOf [mAcon, mBcon] true) [] 2 []
      = Except.error cyclicFkMessage ∧
    (get_create_schema_sql [mAcon, mBcon] true initState).1
      = Except.error cyclicFkMessage :=
  have h := c2_cycle_detection [mAcon, mBcon] true initState
    (unitsOf [mAcon, mBcon] true) rfl (by decide) (by decide)
    (fun _ hx => hx) (by decide)
  ⟨h.1 2 (unitsOf [mAcon, mBcon] true) [] [] 2 (by decide) (by decide), h.2⟩

/-- Claim C3, counterexample to the claim as stated: for model `a` holding a
single reference to `b` with `db_constraint=False`, the unit's dependency
set nevertheless records `b` — the claim's "the referenced table is not
recorded in the unit's dependency (references) set" is false on the code. -/
theorem c3_counterexample :
    mAunc.fields.map (fun fo => fo.reference.map ReferenceDescr.db_constraint)
      = [none, some false] ∧
    (getTableSqlC [mAunc, mBunc] mAunc true []).1.references = ["b"] := by
  refine ⟨rfl, ?_⟩
  decide

/-- Claim C3 (amended): a single-valued reference with
`db_constraint=False` still renders its owning column — the fragment equals
the plain column definition, with no `REFERENCES` clause appended (the FK
clause is the only producer of `REFERENCES` text and is skipped) — and the
fragment is part of the table body; however the referenced table *is*
recorded in the unit's dependency set, so such a relation still contributes
an ordering edge. -/
theorem c3_unconstrained_reference (models : List ModelDescr)
    (m : ModelDescr) (safe : Bool) (cs : List String) (fo : FieldDescr)
    (r : ReferenceDescr) (hfo : fo ∈ m.fields) (href : fo.reference = some r)
    (hcon : r.db_constraint = false) (hgen : isGeneratedPk fo = false) :
    fieldFragment m fo =
      createString fo.column fo.sqlType (if !fo.null then "NOT NULL" else "")
        (if fo.unique then "UNIQUE" else "") fo.pk ""
        (computeDefault m.db_table fo) ∧
    fieldFragment m fo ∈ fieldsToCreateOf m ∧
    r.relatedTable ∈ (getTableSqlC models m safe cs).1.references := by
  refine ⟨?_, ?_, ?_⟩
  · unfold fieldFragment
    rw [hgen]
    simp only [Bool.false_eq_true, if_false]
    rw [href]
    simp only [hcon, Bool.false_eq_true, if_false]
    simp
  · unfold fieldsToCreateOf
    exact List.mem_append_left _
      (List.mem_append_left _ (List.mem_map_of_mem _ hfo))
  · rw [getTableSqlC_char]
    exact mem_refsOfModel hfo href hgen

/-- Claim C3 witness: the unconstrained reference field of `mAunc`. -/
theorem c3_unconstrained_reference_witness :
    fieldFragment mAunc (fkField "b_id" "b" false) =
      createString "b_id" "INT" "NOT NULL" "" false "" "" ∧
    fieldFragment mAunc (fkField "b_id" "b" false) ∈ fieldsToCreateOf mAunc ∧
    "b" ∈ (getTableSqlC [mAunc, mBunc] mAunc true []).1.references := by
  have h := c3_unconstrained_reference [mAunc, mBunc] mAunc true []
    (fkField "b_id" "b" false)
    { relatedTable := "b"
      relatedSchema := none
      toFieldSource := "id"
      toFieldModelName := "id"
      onDelete := "CASCADE"
      db_constraint := false
      description := "" }
    (by decide) rfl rfl rfl
  exact ⟨h.1, h.2.1, h.2.2⟩

/-- Claim C4: generation is deterministic across repeated calls on the same
generator instance.  The first call starts from the fresh instance state;
the second call starts from the state the first call leaves behind (empty
comment collector, accumulated schema names).  Since re-discovering the same
schemas is a no-op and the collector is empty at the start of both calls,
the two scripts are identical. -/
theorem c4_determinism (models : List ModelDescr) (safe : Bool) :
    (get_create_schema_sql models safe initState).1 =
      (get_create_schema_sql models safe
        (get_create_schema_sql models safe initState).2).1 := by
  rw [gen_snd models safe initState rfl, gen_fst models safe initState rfl,
    gen_fst models safe _ rfl]
  show genResult models safe (models.foldl addSchema initState.schema_names)
      = genResult models safe (models.foldl addSchema
        (models.foldl addSchema initState.schema_names))
  rw [foldl_addSchema_idem]

set_option maxRecDepth 4000 in
/-- Claim C5, counterexample to the claim as stated: the source (line 384)
iterates `self.schema_names`, a CPython hash set, whose `for` loop order is
hash-bucket order — *not* first-discovery order; with hash randomization a
two-element set enumerates in either order depending on the process's hash
seed, so only "some permutation of the distinct names" is a property of the
program.  For two models discovered in schemas `s1` then `s2`, the
admissible enumeration `List.reverse` (a permutation of the discovered set)
emits the `s2` creation statement *before* `s1`'s, refuting "in
first-discovery order". -/
theorem c5_counterexample :
    firstDiscovery [mS1, mS2] = ["s1", "s2"] ∧
    (List.reverse (firstDiscovery [mS1, mS2])).Perm
      (firstDiscovery [mS1, mS2]) ∧
    (get_create_schema_sql_iter List.reverse [mS1, mS2] true initState).1
      = Except.ok
        ("CREATE SCHEMA IF NOT EXISTS \"s2\";\nCREATE SCHEMA IF NOT EXISTS \"s1\";\nCREATE TABLE IF NOT EXISTS \"s1\".\"t1\" (\n    \"id\" SERIAL NOT NULL PRIMARY KEY\n);\nCREATE TABLE IF NOT EXISTS \"s2\".\"t3\" (\n    \"id\" SERIAL NOT NULL PRIMARY KEY\n);"
          : String) := by
  refine ⟨rfl, by decide, ?_⟩
  decide

/-- Claim C5 (amended): for every admissible enumeration of the
discovered-namespace set — any permutation of the distinct discovered
names, since the source iterates a hash set whose order is
deterministic-per-process but otherwise unspecified, not first-discovery
order — every successful script is, in order, the namespace-creation
statements (one per distinct non-default (`"public"`) namespace,
duplicate-free, in that enumeration order), then the table-creation
statements in placement order, then the deferred join-table statements in
the order their owning tables were placed (`flatMap` over the placed
units), all newline-joined.  In particular all namespace statements precede
all table statements, so no table statement in namespace N precedes N's
creation statement. -/
theorem c5_script_layout (enum : List String → List String)
    (models : List ModelDescr) (safe : Bool) (s : String)
    (henum : (enum (firstDiscovery models)).Perm (firstDiscovery models))
    (hok : (get_create_schema_sql_iter enum models safe initState).1
      = Except.ok s) :
    ∃ placed : List TUnit,
      placeLoop (unitsOf models safe).length (unitsOf models safe) []
        (unitsOf models safe).length [] = Except.ok placed ∧
      (enum (firstDiscovery models)).Nodup ∧
      s = String.intercalate "\n"
        (((enum (firstDiscovery models)).filter (fun x => x ≠ "public")).map
            (schemaCreationSql safe)
          ++ placed.map TUnit.table_creation_string
          ++ placed.flatMap TUnit.m2m_tables) := by
  rw [gen_iter_fst enum models safe initState rfl] at hok
  unfold genResult at hok
  cases hp : placeLoop (unitsOf models safe).length (unitsOf models safe) []
      (unitsOf models safe).length [] with
  | error e =>
      rw [hp] at hok
      exact absurd hok (by intro hc; cases hc)
  | ok placed =>
      rw [hp] at hok
      injection hok with h
      exact ⟨placed, rfl, henum.symm.nodup (firstDiscovery_nodup models),
        h.symm⟩

set_option maxRecDepth 4000 in
/-- Claim C5 witness: a model in schema `s1` together with a model in the
default namespace, under the identity enumeration (the insertion-ordered
instance realized by `get_create_schema_sql`, see `gen_eq_iter_id`). -/
theorem c5_script_layout_witness :
    ∃ placed : List TUnit,
      placeLoop (unitsOf [mS1, mParent] true).length (unitsOf [mS1, mParent] true)
        [] (unitsOf [mS1, mParent] true).length [] = Except.ok placed ∧
      (id (firstDiscovery [mS1, mParent]) : List String).Nodup ∧
      ("CREATE SCHEMA IF NOT EXISTS \"s1\";\nCREATE TABLE IF NOT EXISTS \"s1\".\"t1\" (\n    \"id\" SERIAL NOT NULL PRIMARY KEY\n);\nCREATE TABLE IF NOT EXISTS \"p\" (\n    \"id\" SERIAL NOT NULL PRIMARY KEY\n);"
        : String)
        = String.intercalate "\n"
        (((id (firstDiscovery [mS1, mParent]) : List String).filter
            (fun x => x ≠ "public")).map (schemaCreationSql true)
          ++ placed.map TUnit.table_creation_string
          ++ placed.flatMap TUnit.m2m_tables) :=
  c5_script_layout id [mS1, mParent] true _ (by decide) (by decide)

/-- Claim C6: rendering one entity with an empty comment collector leaves the
collector empty again (flushed per table, so nothing leaks into the next
table), produces a creation string that *starts* with the `CREATE TABLE`
statement and carries exactly this entity's comment statements as the
suffix behind the table-and-index part, and each join-table statement is the
self-contained rendering of one kept m2m relation (with its own flushed
comment suffix). -/
theorem c6_comment_isolation (models : List ModelDescr) (m : ModelDescr)
    (safe : Bool) :
    (getTableSqlC models m safe []).2 = [] ∧
    (getTableSqlC models m safe []).1.table_creation_string
      = mainTableSql m safe ++ hookStr (commentsOfModel m) ∧
    (∃ r, (getTableSqlC models m safe []).1.table_creation_string
      = "CREATE TABLE " ++ r) ∧
    (∀ s ∈ (getTableSqlC models m safe []).1.m2m_tables,
      ∃ fo ∈ m.m2m_fields,
        m2mKeep (models.map ModelDescr.db_table) fo = true ∧
        s = m2mSql m safe fo) := by
  refine ⟨getTableSqlC_comments _ _ _ _, ?_, ?_, ?_⟩
  · rw [getTableSqlC_char]
    rfl
  · obtain ⟨r0, h0⟩ := intercalate_cons_exists "\n" (tableCreateStmtOf m safe)
      (fieldIndexesOf m safe)
    refine ⟨existsStr safe ++ (tableNameSqlString m.schema m.db_table ++ (" ("
      ++ ("\n    " ++ (String.intercalate ",\n    " (fieldsToCreateOf m)
      ++ ("\n" ++ (")" ++ (tableGenerateExtra ++ (";"
      ++ (r0 ++ hookStr (commentsOfModel m)))))))))), ?_⟩
    rw [getTableSqlC_char]
    show mainTableSql m safe ++ hookStr (commentsOfModel m) = _
    unfold mainTableSql
    rw [h0]
    unfold tableCreateStmtOf
    simp only [String.append_assoc]
  · intro s hs
    rw [getTableSqlC_char] at hs
    have hs' : s ∈ (m.m2m_fields.filter
        (m2mKeep (models.map ModelDescr.db_table))).map (m2mSql m safe) := hs
    obtain ⟨fo, hfo, hsql⟩ := List.mem_map.mp hs'
    have hmem := List.mem_filter.mp hfo
    exact ⟨fo, hmem.1, hmem.2, hsql.symm⟩

/-- Claim C7: when a many-to-many relation's join table name `T` coincides
with a declared model's physical table name, the m2m loop skips it
(`m2mKeep` is false for it), so the rendered m2m statements are exactly
those of the kept relations and the whole script contains exactly one
creation unit for table `T` — the declared entity's. -/
theorem c7_join_table_dedup (models : List ModelDescr) (safe : Bool)
    (T : String)
    (hnd : (models.map ModelDescr.db_table).Nodup)
    (hT : T ∈ models.map ModelDescr.db_table) :
    ((unitsOf models safe).map TUnit.table).count T = 1 ∧
    (∀ m ∈ models, (getTableSqlC models m safe []).1.m2m_tables
        = (m.m2m_fields.filter (m2mKeep (models.map ModelDescr.db_table))).map
          (m2mSql m safe)) ∧
    (∀ m ∈ models, ∀ fo ∈ m.m2m_fields, fo.through = T →
      m2mKeep (models.map ModelDescr.db_table) fo = false) := by
  refine ⟨?_, ?_, ?_⟩
  · rw [unitsOf_tables]
    exact List.count_eq_one_of_mem hnd hT
  · intro m _
    rw [getTableSqlC_char]
  · intro m _ fo _ hth
    have hc : (models.map ModelDescr.db_table).contains fo.through = true := by
      rw [hth]
      simpa using hT
    unfold m2mKeep
    rw [hc]
    simp

/-- Claim C7 witness: `mEvent`'s m2m relation goes through `t2`, which is
also the declared model `mT2`; exactly one `t2` unit exists and no m2m
statement is rendered for it. -/
theorem c7_join_table_dedup_witness :
    ((unitsOf [mEvent, mT2] true).map TUnit.table).count "t2" = 1 ∧
    (∀ m ∈ [mEvent, mT2], (getTableSqlC [mEvent, mT2] m true []).1.m2m_tables
        = (m.m2m_fields.filter
            (m2mKeep ([mEvent, mT2].map ModelDescr.db_table))).map
          (m2mSql m true)) ∧
    (∀ m ∈ [mEvent, mT2], ∀ fo ∈ m.m2m_fields, fo.through = "t2" →
      m2mKeep ([mEvent, mT2].map ModelDescr.db_table) fo = false) :=
  c7_join_table_dedup [mEvent, mT2] true "t2" (by decide) (by decide)

/-- Claim C8, counterexample to the claim as stated: a field carrying only
the auto-now marker (no literal default, no auto-now-add) *does* get a
DEFAULT clause: the guard at source line 153 includes `auto_now`, and the
postgres `_column_default_generator` (lines 102-112) always emits
`" DEFAULT ..."` once invoked — here rendering the escaped `None` default,
`NULL`.  The claim's "no DEFAULT clause at all" is false on the code. -/
theorem c8_counterexample :
    autoNowOnlyField.auto_now = true ∧
    autoNowOnlyField.auto_now_add = false ∧
    autoNowOnlyField.dflt = PyDefault.pyNone ∧
    computeDefault "event" autoNowOnlyField = " DEFAULT NULL" :=
  ⟨rfl, rfl, rfl, rfl⟩

/-- Claim C8 (amended): for a field whose default is neither callable nor of
a non-inlinable class, the auto-now-add marker renders the
database-current-timestamp default, while a field carrying only the
auto-now marker (and no literal default) still receives a DEFAULT clause,
rendering the escaped null default — not the absence of a DEFAULT clause
that the claim stated. -/
theorem c8_auto_now_defaults (db_table : String) (fo : FieldDescr)
    (hc : fo.dflt.isCallable = false) (hni : fo.isNonInlinable = false) :
    (fo.auto_now_add = true →
      computeDefault db_table fo = " DEFAULT CURRENT_TIMESTAMP") ∧
    (fo.auto_now = true → fo.auto_now_add = false →
      fo.dflt = PyDefault.pyNone →
      computeDefault db_table fo = " DEFAULT NULL") := by
  constructor
  · intro ha
    unfold computeDefault columnDefaultGenerator
    rw [ha]
    simp [hc, hni]
  · intro ha hna hd
    unfold computeDefault columnDefaultGenerator escapeDefaultValue
    rw [hd, hna, ha]
    simp [PyDefault.isNotNone, PyDefault.isCallable, hni]

/-- Claim C8 witness: the auto-now-only fixture and an auto-now-add variant
of it. -/
theorem c8_auto_now_defaults_witness :
    ({ autoNowOnlyField with auto_now := false
                             auto_now_add := true }.auto_now_add = true →
      computeDefault "event" { autoNowOnlyField with auto_now := false
                                                     auto_now_add := true }
        = " DEFAULT CURRENT_TIMESTAMP") ∧
    ({ autoNowOnlyField with auto_now := false
                             auto_now_add := true }.auto_now = true →
      { autoNowOnlyField with auto_now := false
                              auto_now_add := true }.auto_now_add = false →
      { autoNowOnlyField with auto_now := false
                              auto_now_add := true }.dflt = PyDefault.pyNone →
      computeDefault "event" { autoNowOnlyField with auto_now := false
                                                     auto_now_add := true }
        = " DEFAULT NULL") :=
  c8_auto_now_defaults "event"
    { autoNowOnlyField with auto_now := false, auto_now_add := true } rfl rfl

/-- Claim C9: a callable default, or a field of a non-inlinable class
(`UUIDField`/`TextField`/`JSONField`), yields the empty default fragment —
the unsupported default is downgraded locally to "no DDL default".  The
computation is total: no error is raised or propagated (the only failure
channel of the whole generator is the cyclic-dependency error of the
ordering loop). -/
theorem c9_unsupported_default_downgrade (db_table : String)
    (fo : FieldDescr)
    (h : fo.dflt = PyDefault.pyCallable ∨ fo.isNonInlinable = true) :
    computeDefault db_table fo = "" := by
  unfold computeDefault
  rcases h with h | h
  · rw [h]
    simp [PyDefault.isCallable, PyDefault.isNotNone]
  · rw [h]
    simp

/-- Claim C9 witness: the callable-default token field. -/
theorem c9_unsupported_default_downgrade_witness :
    computeDefault "event" tokenField = "" :=
  c9_unsupported_default_downgrade "event" tokenField (Or.inl rfl)

/-- Claim C10, counterexample to the claim as stated: after one generation
call on a fresh instance for a model in schema `s1`, the discovered-namespace
set still holds `s1` — it is *not* back to the initial (empty) state and is
never reset per call (`schema_names` is only initialized in `__init__`,
source line 50). -/
theorem c10_counterexample :
    (get_create_schema_sql [mS1] true initState).2.schema_names = ["s1"] ∧
    initState.schema_names = [] := by
  refine ⟨?_, rfl⟩
  decide

/-- Claim C10 (amended): after a call that starts with an empty comment
collector, the collector is empty again (it is flushed per table), but the
discovered-namespace set is not reset: it keeps its previous content and
accumulates the schemas of the processed models, so a subsequent call on
the same instance observes the previously discovered namespaces (harmless
for an unchanged model — see the determinism claim). -/
theorem c10_state_after_call (models : List ModelDescr) (safe : Bool)
    (st : GenState) (h : st.comments_array = []) :
    (get_create_schema_sql models safe st).2
      = ⟨[], models.foldl addSchema st.schema_names⟩ :=
  gen_snd models safe st h

/-- Claim C10 witness: the `s1`-schema model on a fresh instance. -/
theorem c10_state_after_call_witness :
    (get_create_schema_sql [mS1] true initState).2 = ⟨[], ["s1"]⟩ :=
  (c10_state_after_call [mS1] true initState rfl).trans (by decide)

end TortoiseSchema
